import Mathlib

/-!
Shallow embedding of the Smart Image Resizer client logic (src/script.js).
Pure computations (dimension validation, aspect-ratio arithmetic, savings
statistics, filename construction) are translated directly from the source.
Platform primitives (image decoding, Pica resampling, canvas encoding,
object-URL allocation) are modelled by explicit per-file behaviour fields
and an allocation counter, so that the control flow of the source functions
can be reproduced faithfully.
-/

namespace SmartResize

/-- Whitespace test used by the model of JS `parseInt` (characters trimmed
before parsing begins). -/
def isWS (c : Char) : Bool := c == ' ' || c == '\t' || c == '\n' || c == '\r'

/-- Longest leading run of decimal digits, evaluated as a number; `none`
models the JS `NaN` result when no digit is found. -/
def parseDigits (cs : List Char) : Option Nat :=
  let ds := cs.takeWhile (fun c => c.isDigit)
  if ds.isEmpty then none
  else some (ds.foldl (fun a c => a * 10 + (c.toNat - 48)) 0)

/-- Model of the JS builtin `parseInt(value)` in base 10 as used by the
source: trim leading whitespace, optional sign, then the digit prefix;
`none` models `NaN`. -/
def jsParseInt (s : String) : Option Int :=
  match s.data.dropWhile isWS with
  | [] => none
  | c :: rest =>
    if c = '-' then (parseDigits rest).map (fun n => -(n : Int))
    else if c = '+' then (parseDigits rest).map (fun n => (n : Int))
    else (parseDigits (c :: rest)).map (fun n => (n : Int))

/-- Model of JS `Math.round`: floor of the argument plus one half. -/
def jsRound (q : ℚ) : ℤ := ⌊q + 1 / 2⌋

/-- Model of JS `Number.prototype.toFixed(1)` for the nonnegative values
produced by the stats display. -/
def formatFixed1 (q : ℚ) : String :=
  let t : ℤ := jsRound (q * 10)
  toString (t / 10) ++ "." ++ toString (t % 10)

/-- Direction of the size change reported by `showResults`: which branch of
the `savedBytes > 0` test was taken (green shrank text or red grew text). -/
inductive Direction where
  | shrank
  | grew
deriving DecidableEq

/-- Observable outcome of the stats display in `showResults`
(src/script.js lines 759-779): the branch taken, the raw
`savedBytes = origSize - resizedSize` value, and the text written to the
saved-percent element. -/
structure SavingsReport where
  direction : Direction
  savedBytes : ℤ
  display : String
deriving DecidableEq

/-- Stats computation of `showResults` (src/script.js lines 762-779):
`savedBytes = origSize - resizedSize`; when positive the percent saved is
`((savedBytes / origSize) * 100).toFixed(1)` with suffix "% smaller",
otherwise the increase `(((resizedSize - origSize) / origSize) * 100)` is
shown with suffix "% larger". -/
def showResultsModel (origSize resizedSize : Nat) : SavingsReport :=
  let savedBytes : ℤ := (origSize : ℤ) - (resizedSize : ℤ)
  if savedBytes > 0 then
    ⟨Direction.shrank, savedBytes,
      formatFixed1 (((origSize : ℚ) - (resizedSize : ℚ)) / (origSize : ℚ) * 100) ++ "% smaller"⟩
  else
    ⟨Direction.grew, savedBytes,
      formatFixed1 (((resizedSize : ℚ) - (origSize : ℚ)) / (origSize : ℚ) * 100) ++ "% larger"⟩

/-- A raw file handed to `handleFiles` by the presentation layer.  The
`name`, `type` and `size` fields are the DOM `File` properties read by the
source; the remaining fields model the behaviour of the platform
primitives on this particular file's content: whether the load-time decode
succeeds (`loadOk`), the natural dimensions the decoder reports, whether
the resize-time re-decode of the canonical data URL succeeds (`decodeOk`),
whether the Pica resample call succeeds (`resampleOk`), and the byte size
the encoder produces (`encodeSize`, with `none` modelling an encode
failure such as `canvas.toBlob` returning null). -/
structure RawFile where
  name : String
  type : String
  size : Nat
  naturalWidth : Nat
  naturalHeight : Nat
  loadOk : Bool
  decodeOk : Bool
  resampleOk : Bool
  encodeSize : Option Nat
deriving DecidableEq

/-- An encoded resize output: the destination canvas dimensions together
with the byte size of the blob produced by `canvasToBlob`. -/
structure Blob where
  width : Nat
  height : Nat
  size : Nat
deriving DecidableEq

/-- One entry of `state.files` (src/script.js line 99 and the object
resolved by `loadImage`, lines 266-275): the backing file, the
orientation-corrected natural dimensions, the original byte size, and the
nullable resized blob and object URL.  Object URLs are modelled as natural
numbers issued by an allocation counter. -/
structure Item where
  file : RawFile
  naturalWidth : Nat
  naturalHeight : Nat
  originalSize : Nat
  resizedBlob : Option Blob
  resizedUrl : Option Nat
deriving DecidableEq

/-- The item object resolved by a successful `loadImage(file)`
(src/script.js lines 266-275): natural dimensions from the decoder,
`originalSize = file.size`, no resized artifact yet. -/
def mkItem (f : RawFile) : Item :=
  { file := f
    naturalWidth := f.naturalWidth
    naturalHeight := f.naturalHeight
    originalSize := f.size
    resizedBlob := none
    resizedUrl := none }

/-- The MIME allow-list of `handleFiles` (src/script.js line 210). -/
def validTypes : List String :=
  ["image/jpeg", "image/png", "image/webp", "image/gif", "image/bmp", "image/tiff"]

/-- The `maxSize` constant of `handleFiles` (src/script.js line 211). -/
def maxSize : Nat := 50 * 1024 * 1024

/-- Load-time rejection reasons (the two error toasts of `handleFiles`). -/
inductive LoadError where
  | unsupportedFormat
  | tooLarge
deriving DecidableEq

/-- The per-file validation of `handleFiles` (src/script.js lines 215-222):
the MIME type is checked first, then the byte size; `none` means the file
passes into `newFiles`. -/
def screenFile (f : RawFile) : Option LoadError :=
  if !(validTypes.contains f.type) then some LoadError.unsupportedFormat
  else if f.size > maxSize then some LoadError.tooLarge
  else none

/-- `loadImage` as called from the per-file try/catch inside `handleFiles`
(src/script.js lines 230-240): a decode failure is caught per file and
yields no item. -/
def loadImage (f : RawFile) : Option Item :=
  if f.loadOk then some (mkItem f) else none

/-- The items appended to `state.files` by one `handleFiles(fileList)`
submission: the validation filter followed by the per-file load loop with
its per-file error handling. -/
def handleFilesItems (fs : List RawFile) : List Item :=
  (fs.filter (fun f => (screenFile f).isNone)).filterMap loadImage

/-- Pipeline stage failures of `resizeImage` (src/script.js lines 665-719):
the source image load rejecting, the Pica resize rejecting, or
`canvasToBlob` failing. -/
inductive PipelineError where
  | decodeFailed
  | resampleFailed
  | encodeFailed
deriving DecidableEq

/-- Object-URL lifecycle events, in program order: `URL.revokeObjectURL`
and `URL.createObjectURL` calls made by `resizeImage`. -/
inductive UrlEvent where
  | revoke (u : Nat)
  | create (u : Nat)
deriving DecidableEq

/-- Core resize pipeline `resizeImage(item, targetW, targetH)`
(src/script.js lines 665-719): decode the canonical image, resample onto
the destination canvas, encode to a blob; only then revoke the previous
object URL (if any) and install the new blob and URL.  `nextUrl` is the
object-URL allocation counter; the returned list records the URL lifecycle
events in program order. -/
def resizeImage (item : Item) (targetW targetH : Nat) (nextUrl : Nat) :
    Except PipelineError (Item × Nat × List UrlEvent) :=
  if item.file.decodeOk = false then Except.error PipelineError.decodeFailed
  else if item.file.resampleOk = false then Except.error PipelineError.resampleFailed
  else
    match item.file.encodeSize with
    | none => Except.error PipelineError.encodeFailed
    | some sz =>
      let evs := (match item.resizedUrl with
        | some u => [UrlEvent.revoke u]
        | none => []) ++ [UrlEvent.create nextUrl]
      Except.ok
        ({ item with resizedBlob := some ⟨targetW, targetH, sz⟩, resizedUrl := some nextUrl },
         nextUrl + 1, evs)

/-- Whether the resize pipeline succeeds on this item (all three modelled
platform stages succeed). -/
def succeedsB (item : Item) : Bool :=
  item.file.decodeOk && item.file.resampleOk && item.file.encodeSize.isSome

/-- The item as rewritten by a successful `resizeImage` call that was
handed allocation counter `n`. -/
def resizedItem (item : Item) (w h n : Nat) : Item :=
  { item with resizedBlob := some ⟨w, h, item.file.encodeSize.getD 0⟩, resizedUrl := some n }

/-- The slice of application state the resize operations read and write:
the file list, the active index, the two dimension input field values, and
the object-URL allocation counter. -/
structure AppState where
  files : List Item
  activeIndex : Nat
  widthValue : String
  heightValue : String
  nextUrl : Nat
deriving DecidableEq

/-- JS falsiness of a `parseInt` result (`!targetW`): `NaN` and `0` are
falsy. -/
def falsy : Option Int → Bool
  | none => true
  | some n => n == 0

/-- The `targetW < 1` comparison on a `parseInt` result; every comparison
with `NaN` is false in JS. -/
def ltOneJS : Option Int → Bool
  | none => false
  | some n => decide (n < 1)

/-- The `targetW > 10000` comparison on a `parseInt` result; every
comparison with `NaN` is false in JS. -/
def gtMaxJS : Option Int → Bool
  | none => false
  | some n => decide (10000 < n)

/-- The first validation test shared by `resizeCurrent` (src/script.js
line 586) and `resizeAll` (line 628):
`!targetW || !targetH || targetW < 1 || targetH < 1`. -/
def rejectBasic (w h : Option Int) : Bool :=
  falsy w || falsy h || ltOneJS w || ltOneJS h

/-- The second validation test of `resizeCurrent` only (src/script.js
line 591): `targetW > 10000 || targetH > 10000`. -/
def rejectMax (w h : Option Int) : Bool :=
  gtMaxJS w || gtMaxJS h

/-- `resizeCurrent` (src/script.js lines 579-619): look up the active
item, parse and validate the dimension inputs (both validation tests),
run the pipeline; on success install the updated item, on any pipeline
error leave the state untouched (the catch branch only hides the overlay
and shows a toast). -/
def resizeCurrent (st : AppState) : AppState :=
  match st.files[st.activeIndex]? with
  | none => st
  | some item =>
    let tw := jsParseInt st.widthValue
    let th := jsParseInt st.heightValue
    if rejectBasic tw th then st
    else if rejectMax tw th then st
    else
      match tw, th with
      | some w, some h =>
        (match resizeImage item w.toNat h.toNat st.nextUrl with
         | Except.error _ => st
         | Except.ok (item2, next2, _) =>
           { st with files := st.files.set st.activeIndex item2, nextUrl := next2 })
      | _, _ => st

/-- Accumulated outcome of the `resizeAll` loop over the file list. -/
structure BatchOut where
  files : List Item
  completed : Nat
  nextUrl : Nat
  err : Option PipelineError
deriving DecidableEq

/-- The `for` loop of `resizeAll` (src/script.js lines 637-643) together
with its surrounding single try/catch: items are processed in order and
`completed` incremented after each success; the first pipeline error
escapes the loop, leaving the current and all later items untouched. -/
def resizeAllGo (w h : Nat) : List Item → Nat → BatchOut
  | [], n => ⟨[], 0, n, none⟩
  | item :: rest, n =>
    match resizeImage item w h n with
    | Except.error e => ⟨item :: rest, 0, n, some e⟩
    | Except.ok (item2, n2, _) =>
      let r := resizeAllGo w h rest n2
      ⟨item2 :: r.files, r.completed + 1, r.nextUrl, r.err⟩

/-- What `resizeAll` reports at the end: the dimension-validation error
toast, the success toast with the completed count, or the batch error
toast from the catch branch. -/
inductive BatchReport where
  | invalidDims
  | success (n : Nat)
  | failure (e : PipelineError)
deriving DecidableEq

/-- `resizeAll` (src/script.js lines 624-660): parse the dimension inputs
and apply only the basic validation test (there is no 10000 cap here),
then run the loop under a single try/catch; report the completed count on
success, or the caught error. -/
def resizeAll (st : AppState) : AppState × BatchReport :=
  let tw := jsParseInt st.widthValue
  let th := jsParseInt st.heightValue
  if rejectBasic tw th then (st, BatchReport.invalidDims)
  else
    match tw, th with
    | some w, some h =>
      let r := resizeAllGo w.toNat h.toNat st.files st.nextUrl
      ({ st with files := r.files, nextUrl := r.nextUrl },
       match r.err with
       | some e => BatchReport.failure e
       | none => BatchReport.success r.completed)
    | _, _ => (st, BatchReport.invalidDims)

/-- The aspect ratio stored by `selectFile` (src/script.js line 358):
`item.naturalWidth / item.naturalHeight`. -/
def aspectRatioOf (item : Item) : ℚ :=
  (item.naturalWidth : ℚ) / (item.naturalHeight : ℚ)

/-- The control-panel state read by the width/height input handlers:
the two field values, the lock flag, and the stored aspect ratio. -/
structure ControlsState where
  widthValue : String
  heightValue : String
  aspectLocked : Bool
  aspectRatio : ℚ

/-- The width-input handler of `initControls` (src/script.js lines
443-451): after the user edit lands in the field, if the aspect is locked
and the field is nonempty, parse it and (when not `NaN`) overwrite the
height field with `Math.round(w / state.aspectRatio)`. -/
def onWidthInput (s : String) (st : ControlsState) : ControlsState :=
  let st1 := { st with widthValue := s }
  if st1.aspectLocked && !(s == "") then
    match jsParseInt s with
    | some w =>
      { st1 with heightValue := toString (jsRound ((w : ℚ) / st1.aspectRatio)) }
    | none => st1
  else st1

/-- The height-input handler of `initControls` (src/script.js lines
454-462): symmetric to the width handler, overwriting the width field with
`Math.round(h * state.aspectRatio)`. -/
def onHeightInput (s : String) (st : ControlsState) : ControlsState :=
  let st1 := { st with heightValue := s }
  if st1.aspectLocked && !(s == "") then
    match jsParseInt s with
    | some h =>
      { st1 with widthValue := toString (jsRound ((h : ℚ) * st1.aspectRatio)) }
    | none => st1
  else st1

/-- Scanner for the reversed character list of a file name: find the first
dot (the last dot of the original name) and return what lies beyond it;
`none` when there is no dot at all. -/
def stripExtGo : List Char → Option (List Char)
  | [] => none
  | c :: rest => if c = '.' then some rest else stripExtGo rest

/-- The regex semantics of `name.replace(/\.[^.]+$/, '')` on the reversed
character list: the match requires at least one non-dot character at the
end (so a name whose last character is a dot is left unchanged), and strips
from the last dot. -/
def baseNameRev : List Char → List Char
  | [] => []
  | c :: rest =>
    if c = '.' then c :: rest
    else
      match stripExtGo rest with
      | some base => base
      | none => c :: rest

/-- `baseName` as computed by `downloadCurrent` and `downloadAll`
(src/script.js lines 806 and 829): the file name with its final extension
removed by `name.replace(/\.[^.]+$/, '')`. -/
def baseNameOf (name : String) : String :=
  String.mk (baseNameRev name.data.reverse).reverse

/-- The suggested filename built by `downloadCurrent` (src/script.js
line 809) and `downloadAll` (line 830):
the template literal `{baseName}_{w}x{h}.{outputExt}`. -/
def downloadFilename (name : String) (w h : Int) (ext : String) : String :=
  baseNameOf name ++ "_" ++ toString w ++ "x" ++ toString h ++ "." ++ ext

/-- Evaluation helper for the fixed-point renderer: once the scaled
rounding is known, the output string is the integer and fractional digits
joined by a dot. -/
theorem formatFixed1_eval (q : ℚ) (t : Int) (h : ⌊q * 10 + 1 / 2⌋ = t) :
    formatFixed1 q = toString (t / 10) ++ "." ++ toString (t % 10) := by
  simp only [formatFixed1, jsRound]
  rw [h]

/-- Claim C5: for every loaded item with original byte size o > 0 and
resized byte size r, the savings computation reports the delta percent as
(|o - r| / o) * 100 rounded to one decimal place, relative to the original
size, with direction shrank when r < o and grew when r > o; in particular
(o=1000, r=600) yields delta bytes 400, percent "40.0", shrank, and
(o=1000, r=1500) yields grew with percent "50.0". -/
theorem claim_c5_savings :
    (∀ o r : Nat, 0 < o →
      ((r < o → (showResultsModel o r).direction = Direction.shrank) ∧
       (o < r → (showResultsModel o r).direction = Direction.grew) ∧
       (showResultsModel o r).savedBytes = (o : ℤ) - (r : ℤ) ∧
       (showResultsModel o r).display =
         formatFixed1 (|(o : ℚ) - (r : ℚ)| / (o : ℚ) * 100) ++
           (if r < o then "% smaller" else "% larger"))) ∧
    showResultsModel 1000 600 = ⟨Direction.shrank, 400, "40.0% smaller"⟩ ∧
    showResultsModel 1000 1500 = ⟨Direction.grew, -500, "50.0% larger"⟩ := by
  refine ⟨fun o r ho => ?_, ?_, ?_⟩
  · by_cases hro : r < o
    · have habs : |(o : ℚ) - (r : ℚ)| = (o : ℚ) - (r : ℚ) := by
        apply abs_of_pos
        have : (r : ℚ) < (o : ℚ) := by exact_mod_cast hro
        linarith
      simp only [showResultsModel]
      rw [if_pos (by omega : (o : ℤ) - (r : ℤ) > 0)]
      refine ⟨fun _ => rfl, fun h => absurd h (by omega), rfl, ?_⟩
      rw [habs, if_pos hro]
    · have habs : |(o : ℚ) - (r : ℚ)| = (r : ℚ) - (o : ℚ) := by
        rw [abs_sub_comm]
        apply abs_of_nonneg
        have : (o : ℚ) ≤ (r : ℚ) := by exact_mod_cast Nat.le_of_not_lt hro
        linarith
      simp only [showResultsModel]
      rw [if_neg (by omega : ¬((o : ℤ) - (r : ℤ) > 0))]
      refine ⟨fun h => absurd h hro, fun _ => rfl, rfl, ?_⟩
      rw [habs, if_neg hro]
  · simp only [showResultsModel]
    rw [if_pos (by norm_num : ((1000 : Nat) : ℤ) - ((600 : Nat) : ℤ) > 0)]
    have harg : (((1000 : Nat) : ℚ) - ((600 : Nat) : ℚ)) / ((1000 : Nat) : ℚ) * 100 = 40 := by
      norm_num
    rw [harg, formatFixed1_eval 40 400 (by norm_num)]
    decide
  · simp only [showResultsModel]
    rw [if_neg (by norm_num : ¬(((1000 : Nat) : ℤ) - ((1500 : Nat) : ℤ) > 0))]
    have harg : (((1500 : Nat) : ℚ) - ((1000 : Nat) : ℚ)) / ((1000 : Nat) : ℚ) * 100 = 50 := by
      norm_num
    rw [harg, formatFixed1_eval 50 500 (by norm_num)]
    decide

/-- Witness for claim C5 at o = 2, r = 1. -/
theorem claim_c5_savings_witness :
    (showResultsModel 2 1).direction = Direction.shrank :=
  (claim_c5_savings.1 2 1 (by norm_num)).1 (by norm_num)

/-- Claim C9: when the resized byte size exactly equals the original byte
size, the stats display takes the grew branch and reports "0.0% larger";
the shrank direction is reported only when the resized size is strictly
smaller than the original. -/
theorem claim_c9_equal_size : ∀ o r : Nat, 0 < o →
    ((showResultsModel o o).direction = Direction.grew ∧
     (showResultsModel o o).display = "0.0% larger") ∧
    ((showResultsModel o r).direction = Direction.shrank ↔ r < o) := by
  intro o r ho
  constructor
  · constructor
    · simp only [showResultsModel]
      rw [if_neg (by omega : ¬((o : ℤ) - (o : ℤ) > 0))]
    · simp only [showResultsModel]
      rw [if_neg (by omega : ¬((o : ℤ) - (o : ℤ) > 0))]
      have harg : ((o : ℚ) - (o : ℚ)) / (o : ℚ) * 100 = 0 := by
        rw [sub_self, zero_div, zero_mul]
      show formatFixed1 (((o : ℚ) - (o : ℚ)) / (o : ℚ) * 100) ++ "% larger" = "0.0% larger"
      rw [harg, formatFixed1_eval 0 0 (by norm_num)]
      decide
  · by_cases hro : r < o
    · simp only [showResultsModel]
      rw [if_pos (by omega : (o : ℤ) - (r : ℤ) > 0)]
      simpa using hro
    · simp only [showResultsModel]
      rw [if_neg (by omega : ¬((o : ℤ) - (r : ℤ) > 0))]
      simp [hro]

/-- Witness for claim C9 at o = 5, r = 3. -/
theorem claim_c9_equal_size_witness :
    (showResultsModel 5 5).direction = Direction.grew :=
  ((claim_c9_equal_size 5 3 (by norm_num)).1).1

/-- Claim C3: a file whose MIME type is outside the allow-list is rejected
as unsupported, a file larger than 50 MiB is rejected as too large, a
rejected file never appears in the resulting batch, and rejection of one
file does not prevent the other files of the same submission from
loading. -/
theorem claim_c3_load_validation : ∀ (fs : List RawFile) (f : RawFile),
    (validTypes.contains f.type = false →
      screenFile f = some LoadError.unsupportedFormat) ∧
    (validTypes.contains f.type = true → maxSize < f.size →
      screenFile f = some LoadError.tooLarge) ∧
    (screenFile f ≠ none → ∀ it ∈ handleFilesItems fs, it.file ≠ f) ∧
    (f ∈ fs → screenFile f = none → f.loadOk = true →
      mkItem f ∈ handleFilesItems fs) := by
  intro fs f
  refine ⟨fun ht => ?_, fun ht hs => ?_, fun hs it hit => ?_, fun hf hs hl => ?_⟩
  · unfold screenFile
    rw [ht]
    rfl
  · unfold screenFile
    rw [ht]
    simp [hs]
  · intro heq
    simp only [handleFilesItems, List.mem_filterMap] at hit
    obtain ⟨g, hg, hload⟩ := hit
    have hg' := List.mem_filter.mp hg
    have hgl : g.loadOk = true ∧ it = mkItem g := by
      by_cases h : g.loadOk = true
      · refine ⟨h, ?_⟩
        simpa [loadImage, h] using hload.symm
      · simp [loadImage, h] at hload
    have hfile : it.file = g := by rw [hgl.2]; rfl
    have : g = f := by rw [← hfile, heq]
    rw [this] at hg'
    rw [Option.isNone_iff_eq_none.mp hg'.2] at hs
    exact hs rfl
  · simp only [handleFilesItems, List.mem_filterMap]
    refine ⟨f, List.mem_filter.mpr ⟨hf, by simp [hs]⟩, by simp [loadImage, hl]⟩

/-- A normal loadable PNG raw file used as concrete input. -/
def rfGood : RawFile := ⟨"a.png", "image/png", 1000, 8, 6, true, true, true, some 500⟩

/-- A raw file with a MIME type outside the allow-list. -/
def rfBadType : RawFile := ⟨"b.xyz", "text/plain", 1000, 8, 6, true, true, true, some 500⟩

/-- Witness for claim C3: the valid file still loads although the file
submitted next to it is rejected for its MIME type. -/
theorem claim_c3_load_validation_witness :
    mkItem rfGood ∈ handleFilesItems [rfBadType, rfGood] :=
  (claim_c3_load_validation [rfBadType, rfGood] rfGood).2.2.2
    (by decide) (by decide) (by decide)

/-- A failed pipeline stage makes `resizeImage` return an error. -/
theorem resizeImage_err_of_fails (item : Item) (w h n : Nat)
    (hf : succeedsB item = false) :
    ∃ e, resizeImage item w h n = Except.error e := by
  unfold succeedsB at hf
  unfold resizeImage
  cases hd : item.file.decodeOk <;>
    cases hr : item.file.resampleOk <;>
      cases he : item.file.encodeSize <;>
        simp_all

/-- A successful pipeline run rewrites the item, bumps the URL counter and
emits the revoke (if any) and create events in program order. -/
theorem resizeImage_ok_of_succeeds (item : Item) (w h n : Nat)
    (hs : succeedsB item = true) :
    resizeImage item w h n = Except.ok (resizedItem item w h n, n + 1,
      (match item.resizedUrl with
       | some u => [UrlEvent.revoke u]
       | none => []) ++ [UrlEvent.create n]) := by
  unfold succeedsB at hs
  obtain ⟨⟨hd, hr⟩, hi⟩ : (item.file.decodeOk = true ∧ item.file.resampleOk = true) ∧
      item.file.encodeSize.isSome = true := by simpa [Bool.and_eq_true] using hs
  obtain ⟨sz, he⟩ := Option.isSome_iff_exists.mp hi
  simp [resizeImage, resizedItem, hd, hr, he]

/-- Claim C6: when a single-item resize pipeline fails at any stage
(source decode, resample, or encode), the operation aborts and the item's
previous state — in particular its existing resized artifact and URL, if
any — is left unchanged (the whole application state is returned as it
was). -/
theorem claim_c6_failure_preserves : ∀ (st : AppState) (item : Item),
    st.files[st.activeIndex]? = some item →
    succeedsB item = false →
    resizeCurrent st = st := by
  intro st item hget hfail
  simp only [resizeCurrent, hget]
  split
  · rfl
  · split
    · rfl
    · split
      · obtain ⟨e, he⟩ := resizeImage_err_of_fails item _ _ st.nextUrl hfail
        rw [he]
      · rfl

/-- A raw file whose resize-time decode fails. -/
def rfBadDecode : RawFile := ⟨"c.png", "image/png", 1000, 8, 6, true, false, true, some 500⟩

/-- The loaded item of the file whose resize-time decode fails. -/
def itemBadDecode : Item := mkItem rfBadDecode

/-- A concrete state whose active item has a failing pipeline. -/
def stFailing : AppState := ⟨[itemBadDecode], 0, "100", "100", 0⟩

/-- Witness for claim C6: resizing the failing item leaves the state
unchanged. -/
theorem claim_c6_failure_preserves_witness : resizeCurrent stFailing = stFailing :=
  claim_c6_failure_preserves stFailing itemBadDecode (by decide) (by decide)

/-- Claim C7: on every successful resize the new artifact replaces the
previous one: the previous object URL, if any, is revoked before the new
blob and URL are installed (the revoke event precedes the create event in
the emitted program-order trace), and the resulting item holds exactly the
one new artifact. -/
theorem claim_c7_artifact_replaced : ∀ (item : Item) (w h n sz : Nat),
    item.file.decodeOk = true → item.file.resampleOk = true →
    item.file.encodeSize = some sz →
    (∀ u, item.resizedUrl = some u →
      resizeImage item w h n = Except.ok
        ({ item with resizedBlob := some ⟨w, h, sz⟩, resizedUrl := some n }, n + 1,
         [UrlEvent.revoke u, UrlEvent.create n])) ∧
    (item.resizedUrl = none →
      resizeImage item w h n = Except.ok
        ({ item with resizedBlob := some ⟨w, h, sz⟩, resizedUrl := some n }, n + 1,
         [UrlEvent.create n])) := by
  intro item w h n sz hd hr he
  constructor
  · intro u hu
    simp [resizeImage, hd, hr, he, hu]
  · intro hu
    simp [resizeImage, hd, hr, he, hu]

/-- An item that already carries a resized artifact with object URL 5. -/
def itemWithOld : Item :=
  { mkItem rfGood with resizedBlob := some ⟨3, 3, 10⟩, resizedUrl := some 5 }

/-- Witness for claim C7: resizing the item that already has artifact URL 5
revokes URL 5 first, then creates URL 7, and replaces the blob. -/
theorem claim_c7_artifact_replaced_witness :
    resizeImage itemWithOld 10 20 7 = Except.ok
      ({ itemWithOld with resizedBlob := some ⟨10, 20, 500⟩, resizedUrl := some 7 }, 8,
       [UrlEvent.revoke 5, UrlEvent.create 7]) :=
  (claim_c7_artifact_replaced itemWithOld 10 20 7 500 rfl rfl rfl).1 5 rfl

/-- Claim C4: for every active item with source dimensions W times H and
the aspect lock on, editing the width field to a parseable value sets the
height field to round(w * H / W), and editing the height field sets the
width field to round(h * W / H); each single edit rewrites only the
opposite dimension, leaving the edited field at the entered text. -/
theorem claim_c4_aspect_lock : ∀ (item : Item) (st : ControlsState) (s : String) (w : Int),
    0 < item.naturalWidth → 0 < item.naturalHeight →
    st.aspectLocked = true →
    st.aspectRatio = aspectRatioOf item →
    s ≠ "" →
    jsParseInt s = some w →
    onWidthInput s st =
      { st with
          widthValue := s,
          heightValue := toString (jsRound
            ((w : ℚ) * (item.naturalHeight : ℚ) / (item.naturalWidth : ℚ))) } ∧
    onHeightInput s st =
      { st with
          heightValue := s,
          widthValue := toString (jsRound
            ((w : ℚ) * (item.naturalWidth : ℚ) / (item.naturalHeight : ℚ))) } := by
  intro item st s w hW hH hlock hratio hs hparse
  have hsb : (s == "") = false := beq_eq_false_iff_ne.mpr hs
  constructor
  · have harg : (w : ℚ) / aspectRatioOf item =
        (w : ℚ) * (item.naturalHeight : ℚ) / (item.naturalWidth : ℚ) := by
      unfold aspectRatioOf
      rw [div_div_eq_mul_div]
    simp only [onWidthInput, hlock, hsb, hparse, hratio, harg, Bool.not_false,
      Bool.and_self, if_true]
  · have harg : (w : ℚ) * aspectRatioOf item =
        (w : ℚ) * (item.naturalWidth : ℚ) / (item.naturalHeight : ℚ) := by
      unfold aspectRatioOf
      rw [← mul_div_assoc]
    simp only [onHeightInput, hlock, hsb, hparse, hratio, harg, Bool.not_false,
      Bool.and_self, if_true]

/-- A loaded 40 by 30 item used to exercise the aspect lock. -/
def itemCtrl : Item := mkItem ⟨"d.png", "image/png", 1000, 40, 30, true, true, true, some 500⟩

/-- Control-panel state selected on the 40 by 30 item with the lock on. -/
def ctrlSt : ControlsState := ⟨"40", "30", true, aspectRatioOf itemCtrl⟩

/-- Witness for claim C4: editing the width field to "100" on the 40 by 30
item recomputes the height field from round(100 * 30 / 40). -/
theorem claim_c4_aspect_lock_witness :
    onWidthInput "100" ctrlSt =
      { ctrlSt with
          widthValue := "100",
          heightValue := toString (jsRound
            ((((100 : Int)) : ℚ) * (itemCtrl.naturalHeight : ℚ) / (itemCtrl.naturalWidth : ℚ))) } :=
  (claim_c4_aspect_lock itemCtrl ctrlSt "100" 100
    (by decide) (by decide) rfl rfl (by decide) (by decide)).1

/-- Scanning past non-dot characters to the first dot returns the suffix
beyond that dot. -/
theorem stripExtGo_append (cs t : List Char) (h : ∀ c ∈ cs, c ≠ '.') :
    stripExtGo (cs ++ '.' :: t) = some t := by
  induction cs with
  | nil => simp [stripExtGo]
  | cons c cs ih =>
    have hc : c ≠ '.' := h c (List.mem_cons_self c cs)
    simp only [List.cons_append, stripExtGo, if_neg hc]
    exact ih fun x hx => h x (List.mem_cons_of_mem c hx)

/-- Claim C8: the suggested download filename has the form
baseName_WxH.ext where baseName is the source file name with its final
extension removed and ext is the selected output format's extension. -/
theorem claim_c8_filename : ∀ (b e : String) (w h : Int) (ext : String),
    e ≠ "" → (∀ c ∈ e.data, c ≠ '.') →
    downloadFilename (b ++ "." ++ e) w h ext =
      b ++ "_" ++ toString w ++ "x" ++ toString h ++ "." ++ ext := by
  intro b e w h ext he hdot
  have hbase : baseNameOf (b ++ "." ++ e) = b := by
    unfold baseNameOf
    have hdata : (b ++ "." ++ e).data = b.data ++ '.' :: e.data := by
      rw [String.data_append, String.data_append]
      simp
    rw [hdata]
    have hne : e.data ≠ [] := by
      intro h0
      apply he
      cases e
      simp_all
    have hrev : (b.data ++ '.' :: e.data).reverse =
        e.data.reverse ++ '.' :: b.data.reverse := by
      simp
    rw [hrev]
    cases hcase : e.data.reverse with
    | nil => exact absurd (by simpa using hcase) hne
    | cons c cs =>
      have hcmem : c ∈ e.data := by
        rw [← List.mem_reverse, hcase]
        exact List.mem_cons_self c cs
      have hcdot : c ≠ '.' := hdot c hcmem
      have hcsmem : ∀ x ∈ cs, x ≠ '.' := by
        intro x hx
        apply hdot
        rw [← List.mem_reverse, hcase]
        exact List.mem_cons_of_mem c hx
      simp only [List.cons_append, baseNameRev, if_neg hcdot,
        stripExtGo_append cs b.data.reverse hcsmem]
      rw [List.reverse_reverse]
  unfold downloadFilename
  rw [hbase]

/-- Witness for claim C8 on "photo.jpg" at 800 by 600 with webp output. -/
theorem claim_c8_filename_witness :
    downloadFilename ("photo" ++ "." ++ "jpg") 800 600 "webp" =
      "photo" ++ "_" ++ toString (800 : Int) ++ "x" ++ toString (600 : Int) ++ "." ++ "webp" :=
  claim_c8_filename "photo" "jpg" 800 600 "webp" (by decide) (by decide)

/-- A digit character is not parse-leading whitespace. -/
theorem isWS_false_of_digit (c : Char) (h : c.isDigit = true) : isWS c = false := by
  have h1 : (c == ' ') = false := by
    cases eq_or_ne c ' ' with
    | inl he => rw [he] at h; exact absurd h (by decide)
    | inr hne => exact beq_eq_false_iff_ne.mpr hne
  have h2 : (c == '\t') = false := by
    cases eq_or_ne c '\t' with
    | inl he => rw [he] at h; exact absurd h (by decide)
    | inr hne => exact beq_eq_false_iff_ne.mpr hne
  have h3 : (c == '\n') = false := by
    cases eq_or_ne c '\n' with
    | inl he => rw [he] at h; exact absurd h (by decide)
    | inr hne => exact beq_eq_false_iff_ne.mpr hne
  have h4 : (c == '\r') = false := by
    cases eq_or_ne c '\r' with
    | inl he => rw [he] at h; exact absurd h (by decide)
    | inr hne => exact beq_eq_false_iff_ne.mpr hne
  simp [isWS, h1, h2, h3, h4]

/-- A digit character differs from any non-digit character. -/
theorem digit_ne_of_not_digit (c x : Char) (hx : x.isDigit = false)
    (h : c.isDigit = true) : c ≠ x := by
  intro he
  rw [he, hx] at h
  cases h

/-- Taking the digit prefix of an all-digit run followed by a dot stops
exactly at the dot. -/
theorem takeWhile_digits_append (ds t : List Char) (h : ∀ c ∈ ds, c.isDigit = true) :
    (ds ++ '.' :: t).takeWhile (fun c => c.isDigit) = ds := by
  induction ds with
  | nil => simp [List.takeWhile_cons]
  | cons c cs ih =>
    simp only [List.cons_append, List.takeWhile_cons, h c (List.mem_cons_self c cs),
      if_true]
    rw [ih fun x hx => h x (List.mem_cons_of_mem c hx)]

/-- Taking the digit prefix of an all-digit run keeps the whole run. -/
theorem takeWhile_digits_self (ds : List Char) (h : ∀ c ∈ ds, c.isDigit = true) :
    ds.takeWhile (fun c => c.isDigit) = ds := by
  induction ds with
  | nil => rfl
  | cons c cs ih =>
    simp only [List.takeWhile_cons, h c (List.mem_cons_self c cs), if_true]
    rw [ih fun x hx => h x (List.mem_cons_of_mem c hx)]

/-- A trailing fragment starting with a dot never changes the parsed digit
prefix. -/
theorem parseDigits_append (ds t : List Char) (h : ∀ c ∈ ds, c.isDigit = true) :
    parseDigits (ds ++ '.' :: t) = parseDigits ds := by
  unfold parseDigits
  rw [takeWhile_digits_append ds t h, takeWhile_digits_self ds h]

/-- A loadable item used to exercise fractional dimension input. -/
def itemFrac : Item := mkItem ⟨"e.png", "image/png", 1000, 8, 6, true, true, true, some 321⟩

/-- A state whose dimension fields hold fractional numeric strings. -/
def stFrac : AppState := ⟨[itemFrac], 0, "100.9", "50.5", 0⟩

/-- Claim C10: target dimensions entered as numeric strings with a
fractional part are truncated by parseInt rather than rejected: for any
digit run followed by a dot and anything else, the parse result equals the
parse of the digit run alone; concretely "100.9" parses to 100 and both
resizeCurrent and resizeAll proceed using the truncated 100 by 50. -/
theorem claim_c10_fractional_truncation :
    (∀ ds rest : List Char, ds ≠ [] → (∀ c ∈ ds, c.isDigit = true) →
      jsParseInt (String.mk (ds ++ '.' :: rest)) = jsParseInt (String.mk ds)) ∧
    jsParseInt "100.9" = some 100 ∧
    resizeCurrent stFrac = { stFrac with files := [resizedItem itemFrac 100 50 0], nextUrl := 1 } ∧
    (resizeAll stFrac).1.files = [resizedItem itemFrac 100 50 0] ∧
    (resizeAll stFrac).2 = BatchReport.success 1 := by
  refine ⟨?_, by decide, by decide, by decide, by decide⟩
  intro ds rest hne hd
  cases ds with
  | nil => exact absurd rfl hne
  | cons c cs =>
    have hc : c.isDigit = true := hd c (List.mem_cons_self c cs)
    have hws : isWS c = false := isWS_false_of_digit c hc
    have hdash : c ≠ '-' := digit_ne_of_not_digit c '-' (by decide) hc
    have hplus : c ≠ '+' := digit_ne_of_not_digit c '+' (by decide) hc
    unfold jsParseInt
    dsimp only
    simp only [List.cons_append, List.dropWhile_cons, hws, Bool.false_eq_true,
      if_false, if_neg hdash, if_neg hplus]
    rw [← List.cons_append, parseDigits_append (c :: cs) rest hd]

/-- Witness for claim C10 on the digit run "7" followed by ".3". -/
theorem claim_c10_fractional_truncation_witness :
    jsParseInt (String.mk (['7'] ++ '.' :: ['3'])) = jsParseInt (String.mk ['7']) :=
  claim_c10_fractional_truncation.1 ['7'] ['3'] (by decide) (by decide)

/-- A loadable item with full pipeline support used in the dimension
boundary states. -/
def itemMax : Item := mkItem ⟨"f.png", "image/png", 1000, 8, 6, true, true, true, some 777⟩

/-- A batch state whose dimension fields read 10001, above the cap. -/
def stOverCap : AppState := ⟨[itemMax], 0, "10001", "10001", 0⟩

/-- Counterexample to claim C2: with both target fields at 10001,
`resizeAll` does not reject the dimensions — it resizes the batch to
10001 by 10001 and reports one success, although the claim says both
operations reject any dimension greater than 10,000 before any resampling
begins. -/
theorem claim_c2_counterexample :
    (resizeAll stOverCap).2 = BatchReport.success 1 ∧
    (resizeAll stOverCap).1.files = [resizedItem itemMax 10001 10001 0] := by
  decide

/-- A single-item state whose dimension fields read exactly 10000. -/
def stAtCap : AppState := ⟨[itemMax], 0, "10000", "10000", 0⟩

/-- A single-item state with width 10001 and height 10000. -/
def stOverCapCur : AppState := ⟨[itemMax], 0, "10001", "10000", 0⟩

/-- Claim C2 amended: `resizeCurrent` validates the parsed target
dimensions before any work — missing, non-positive, or over-10,000 values
are rejected with the state unchanged, exactly 10000 by 10000 is accepted
and resized, and 10001 in either axis is rejected; `resizeAll` applies
only the missing/non-positive validation and does not enforce the 10,000
cap. -/
theorem claim_c2_amended :
    (∀ st : AppState,
      (rejectBasic (jsParseInt st.widthValue) (jsParseInt st.heightValue) = true ∨
       rejectMax (jsParseInt st.widthValue) (jsParseInt st.heightValue) = true) →
      resizeCurrent st = st) ∧
    (∀ st : AppState,
      rejectBasic (jsParseInt st.widthValue) (jsParseInt st.heightValue) = true →
      resizeAll st = (st, BatchReport.invalidDims)) ∧
    (∀ w h : Int,
      (rejectBasic (some w) (some h) || rejectMax (some w) (some h)) = false ↔
        1 ≤ w ∧ w ≤ 10000 ∧ 1 ≤ h ∧ h ≤ 10000) ∧
    (∀ w h : Int, rejectBasic (some w) (some h) = false ↔ 1 ≤ w ∧ 1 ≤ h) ∧
    (∀ x : Option Int, rejectBasic none x = true ∧ rejectBasic x none = true) ∧
    resizeCurrent stAtCap = { stAtCap with files := [resizedItem itemMax 10000 10000 0], nextUrl := 1 } ∧
    resizeCurrent stOverCapCur = stOverCapCur := by
  refine ⟨?_, ?_, ?_, ?_, ?_, by decide, by decide⟩
  · intro st hrej
    simp only [resizeCurrent]
    split
    · rfl
    · rcases hrej with hb | hm
      · rw [if_pos hb]
      · by_cases hb : rejectBasic (jsParseInt st.widthValue) (jsParseInt st.heightValue) = true
        · rw [if_pos hb]
        · rw [if_neg hb, if_pos hm]
  · intro st hb
    simp only [resizeAll]
    rw [if_pos hb]
  · intro w h
    simp only [rejectBasic, rejectMax, falsy, ltOneJS, gtMaxJS,
      Bool.or_eq_false_iff, decide_eq_false_iff_not, beq_eq_false_iff_ne, ne_eq]
    omega
  · intro w h
    simp only [rejectBasic, falsy, ltOneJS,
      Bool.or_eq_false_iff, decide_eq_false_iff_not, beq_eq_false_iff_ne, ne_eq]
    omega
  · intro x
    constructor
    · simp [rejectBasic, falsy]
    · simp [rejectBasic, falsy]

/-- A state whose width field parses to the falsy value 0. -/
def stZeroWidth : AppState := ⟨[itemMax], 0, "0", "100", 0⟩

/-- Witness for the amended claim C2: the zero width is rejected and the
state is returned unchanged. -/
theorem claim_c2_amended_witness : resizeCurrent stZeroWidth = stZeroWidth :=
  claim_c2_amended.1 stZeroWidth (Or.inl (by decide))

/-- The items of an all-succeeding run after a batch pass that hands out
consecutive object URLs starting at n. -/
def resizedRun (w h : Nat) : List Item → Nat → List Item
  | [], _ => []
  | it :: rest, n => resizedItem it w h n :: resizedRun w h rest (n + 1)

/-- The batch loop on a list whose prefix succeeds and whose next item
fails: the prefix is resized with consecutive URLs, the failing item and
everything after it are left untouched, the completed count stops at the
prefix length, and the loop escapes with the pipeline error. -/
theorem resizeAllGo_abort (w h : Nat) (pre : List Item) (bad : Item)
    (post : List Item) (n : Nat)
    (hpre : ∀ it ∈ pre, succeedsB it = true) (hbad : succeedsB bad = false) :
    ∃ e, resizeAllGo w h (pre ++ bad :: post) n =
      ⟨resizedRun w h pre n ++ bad :: post, pre.length, n + pre.length, some e⟩ := by
  induction pre generalizing n with
  | nil =>
    obtain ⟨e, he⟩ := resizeImage_err_of_fails bad w h n hbad
    exact ⟨e, by simp [resizeAllGo, he, resizedRun]⟩
  | cons it pre ih =>
    have hit : succeedsB it = true := hpre it (List.mem_cons_self it pre)
    obtain ⟨e, he⟩ := ih (n + 1) (fun x hx => hpre x (List.mem_cons_of_mem it hx))
    refine ⟨e, ?_⟩
    rw [List.cons_append]
    simp only [resizeAllGo]
    rw [resizeImage_ok_of_succeeds it w h n hit]
    dsimp only
    rw [he]
    simp only [resizedRun, List.cons_append, List.length_cons, BatchOut.mk.injEq]
    refine ⟨trivial, trivial, by omega, trivial⟩

/-- A loadable item with blob size 111 used in the batch states. -/
def itemG1 : Item := mkItem ⟨"g1.png", "image/png", 1000, 8, 6, true, true, true, some 111⟩

/-- A loadable item with blob size 222 used in the batch states. -/
def itemG2 : Item := mkItem ⟨"g2.png", "image/png", 1000, 8, 6, true, true, true, some 222⟩

/-- A three-item batch whose middle item has a failing pipeline. -/
def stBatch : AppState := ⟨[itemG1, itemBadDecode, itemG2], 0, "100", "100", 0⟩

/-- Counterexample to claim C1: in the batch of N = 3 items whose middle
item (k = 1) fails, `resizeAll` leaves item 2 without any resized
artifact and reports the caught error instead of N - 1 = 2 successes —
the failure on item k stops the processing of subsequent items. -/
theorem claim_c1_counterexample :
    (resizeAll stBatch).2 = BatchReport.failure PipelineError.decodeFailed ∧
    ((resizeAll stBatch).1.files[2]?).map Item.resizedBlob = some none := by
  decide

/-- Claim C1 amended: when the batch consists of a succeeding prefix, one
failing item and an arbitrary tail, `resizeAll` resizes only the items
before the failure (with consecutive fresh URLs), aborts at the failing
item leaving it and every later item unchanged, and reports the caught
pipeline error rather than a success count. -/
theorem claim_c1_amended : ∀ (st : AppState) (pre post : List Item) (bad : Item) (w h : Nat),
    st.files = pre ++ bad :: post →
    (∀ it ∈ pre, succeedsB it = true) →
    succeedsB bad = false →
    jsParseInt st.widthValue = some ((w : Nat) : Int) →
    jsParseInt st.heightValue = some ((h : Nat) : Int) →
    1 ≤ w → 1 ≤ h →
    ∃ e, resizeAll st =
      ({ st with
          files := resizedRun w h pre st.nextUrl ++ bad :: post,
          nextUrl := st.nextUrl + pre.length },
       BatchReport.failure e) := by
  intro st pre post bad w h hfiles hpre hbad hw hh hw1 hh1
  have hb : ¬(rejectBasic (some ((w : Nat) : Int)) (some ((h : Nat) : Int)) = true) := by
    simp only [rejectBasic, falsy, ltOneJS, Bool.or_eq_true, beq_iff_eq,
      decide_eq_true_eq]
    omega
  obtain ⟨e, he⟩ := resizeAllGo_abort w h pre bad post st.nextUrl hpre hbad
  refine ⟨e, ?_⟩
  simp only [resizeAll]
  rw [hw, hh, if_neg hb]
  dsimp only
  rw [Int.toNat_natCast, Int.toNat_natCast, hfiles, he]

/-- Witness for the amended claim C1 on the three-item batch with the
failing middle item. -/
theorem claim_c1_amended_witness :
    ∃ e, resizeAll stBatch =
      ({ stBatch with
          files := resizedRun 100 100 [itemG1] stBatch.nextUrl ++ itemBadDecode :: [itemG2],
          nextUrl := stBatch.nextUrl + [itemG1].length },
       BatchReport.failure e) :=
  claim_c1_amended stBatch [itemG1] [itemG2] itemBadDecode 100 100 rfl
    (by decide) (by decide) (by decide) (by decide) (by decide) (by decide)

end SmartResize
